import Mathlib

/-!
Shallow embedding of `yaml_conversion/converters.py` (appengine-config-transformer):
value converters and the URL-handler restructuring algorithm, together with
proofs of the behavioural properties claimed for them.

Python handler records are mappings from field names to YAML values; they are
embedded as association lists over an inductive value type.  Python exceptions
(`ValueError`, `KeyError`, `AttributeError`) are embedded as an explicit error
type, and fallible functions return `Except`.
-/

/-- Embedding of the Python values that flow through the converters:
strings, integers, booleans, lists and mappings. -/
inductive PyVal where
  | str (s : String)
  | int (n : Int)
  | bool (b : Bool)
  | list (elems : List PyVal)
  | dict (items : List (String × PyVal))

/-- Embedding of the Python exceptions the module can raise:
`ValueError` (raised explicitly by the converters), `KeyError`
(raised by a `handler[...]` lookup on a missing key) and `AttributeError`
(raised by calling `.rstrip` on a non-string). -/
inductive PyError where
  | valueError (msg : String)
  | keyError (key : String)
  | attributeError (attr : String)
deriving DecidableEq

deriving instance DecidableEq for Except

/-- A Python dict with string keys, embedded as an association list
(unique keys are maintained by the update operation below). -/
abbrev Dict := List (String × PyVal)

/-- Membership test `k in d` of a Python dict. -/
def dictContains : Dict → String → Bool
  | [], _ => false
  | (a, _) :: d, k => a == k || dictContains d k

/-- Lookup `d.get(k)` returning an optional value. -/
def dictGet? : Dict → String → Option PyVal
  | [], _ => none
  | (a, b) :: d, k => if a == k then some b else dictGet? d k

/-- Subscript lookup `d[k]` of a Python dict: raises `KeyError` when absent. -/
def dictGetItem (d : Dict) (k : String) : Except PyError PyVal :=
  match dictGet? d k with
  | some v => Except.ok v
  | none => Except.error (PyError.keyError k)

/-- Replace the value stored under an existing key, in place. -/
def dictReplace : Dict → String → PyVal → Dict
  | [], _, _ => []
  | (a, b) :: d, k, v =>
    if a == k then (k, v) :: dictReplace d k v else (a, b) :: dictReplace d k v

/-- Assignment `d[k] = v` of a Python dict: overwrites an existing key in
place, otherwise appends a new entry. -/
def dictSet (d : Dict) (k : String) (v : PyVal) : Dict :=
  if dictContains d k then dictReplace d k v else d ++ [(k, v)]

/-- Deletion `del d[k]` of a Python dict (callers below only delete keys
that are present). -/
def dictErase : Dict → String → Dict
  | [], _ => []
  | (a, b) :: d, k =>
    if a == k then dictErase d k else (a, b) :: dictErase d k

/-- Python `str.upper()` restricted to ASCII, which is the behaviour of
byte strings in the source's Python 2. -/
def pyUpper (s : String) : String :=
  String.mk (s.toList.map Char.toUpper)

/-- Python `s.endswith(c)` for a single-character suffix. -/
def pyEndsWithChar (s : String) (c : Char) : Bool :=
  s.toList.getLast? == some c

/-- Python `path.rstrip('/')`: strip all trailing forward slashes. -/
def pyRstripSlashes (s : String) : String :=
  String.mk ((s.toList.reverse.dropWhile (fun c => c == '/')).reverse)

/-- Value of a non-empty all-digit character list, as parsed by Python
`int` / `float` on a digit string; `none` when the list is empty or
contains a non-digit. -/
def digitsToNat? (cs : List Char) : Option Nat :=
  if !cs.isEmpty && cs.all Char.isDigit then
    some (cs.foldl (fun a c => a * 10 + (c.toNat - 48)) 0)
  else none

/-- Whitespace stripping performed by Python `int(...)` on its argument. -/
def pyTrim (cs : List Char) : List Char :=
  ((cs.dropWhile Char.isWhitespace).reverse.dropWhile Char.isWhitespace).reverse

/-- Sign handling of Python `int(...)`: an optional leading `+` or `-`
followed by a non-empty digit string. -/
def pyIntCore (cs : List Char) : Option Int :=
  match cs with
  | '-' :: ds => (digitsToNat? ds).map (fun n => -(n : Int))
  | '+' :: ds => (digitsToNat? ds).map (fun n => (n : Int))
  | ds => (digitsToNat? ds).map (fun n => (n : Int))

/-- Python `int(value)` on a string: strips surrounding whitespace, accepts
an optional sign and a non-empty digit string, and raises `ValueError`
otherwise. -/
def pyInt (value : String) : Except PyError Int :=
  match pyIntCore (pyTrim value.toList) with
  | some n => Except.ok n
  | none => Except.error (PyError.valueError ("invalid literal for int: " ++ value))

/-- Embedding of `EnumConverter(prefix)`: validates the prefix eagerly and
returns the conversion function. -/
def EnumConverter (pfx : String) : Except PyError (String → String) :=
  if pfx == "" then
    Except.error (PyError.valueError "A prefix must be provided")
  else if !(pfx == pyUpper pfx) then
    Except.error (PyError.valueError "Upper-cased prefix must be provided")
  else if pyEndsWithChar pfx '_' then
    Except.error (PyError.valueError "Prefix should not contain a trailing underscore")
  else
    Except.ok (fun value => pfx ++ "_" ++ pyUpper value)

/-- Embedding of `ToJsonString(value)`: rejects composites, lower-cases
booleans, and stringifies the remaining primitives. -/
def ToJsonString (value : PyVal) : Except PyError String :=
  match value with
  | PyVal.list _ => Except.error (PyError.valueError "Expected a primitive value")
  | PyVal.dict _ => Except.error (PyError.valueError "Expected a primitive value")
  | PyVal.bool b => Except.ok (if b then "true" else "false")
  | PyVal.int n => Except.ok (toString n)
  | PyVal.str s => Except.ok s

/-- Embedding of `StringToInt(handle_automatic)`: the returned conversion
function. -/
def StringToInt (handleAutomatic : Bool) (value : String) : Except PyError Int :=
  if value == "automatic" && handleAutomatic then Except.ok 0
  else pyInt value

/-- Modelled from the spec: `appinfo._PENDING_LATENCY_REGEX`, the pending
latency pattern supplied by the external `appinfo` collaborator module,
which is not part of the conversion module itself.  Per the spec a value
matches when it is the literal `automatic`, a digit string followed by
`ms`, or a digit string with an optional fractional part followed by `s`. -/
def pendingLatencyMatch (value : String) : Bool :=
  let cs := value.toList
  value == "automatic" ||
    (let ds := cs.takeWhile Char.isDigit
     let rest := cs.dropWhile Char.isDigit
     !ds.isEmpty &&
       (rest == ['m', 's'] || rest == ['s'] ||
         (match rest with
          | '.' :: r => !(r.takeWhile Char.isDigit).isEmpty && r.dropWhile Char.isDigit == ['s']
          | _ => false)))

/-- Number of decimal digits of a natural number (one digit for zero). -/
def digitsLen (n : Nat) : Nat :=
  (toString n).length

/-- Floor of the base-two logarithm of a positive natural number, computed
from its binary digit string (structurally, so that concrete instances
reduce). -/
def floorLog2 (n : Nat) : Nat :=
  (Nat.toDigits 2 n).length - 1

/-- Round the non-negative fraction `a / b` (with `b` positive) to the
nearest integer with ties to even, the rounding used both by IEEE-754
binary64 arithmetic and by the correctly rounded binary-to-decimal
conversion in CPython's float formatting. -/
def roundHalfEvenFrac (a b : Nat) : Nat :=
  let f := a / b
  let r := a % b
  if 2 * r < b then f
  else if b < 2 * r then f + 1
  else if f % 2 = 0 then f else f + 1

/-- Multiply the fraction `a / b` by `2 ^ s` for a signed exponent. -/
def fracMulPow2 (a b : Nat) (s : Int) : Nat × Nat :=
  if 0 ≤ s then (a * 2 ^ s.toNat, b) else (a, b * 2 ^ (-s).toNat)

/-- Multiply the fraction `a / b` by `10 ^ s` for a signed exponent. -/
def fracMulPow10 (a b : Nat) (s : Int) : Nat × Nat :=
  if 0 ≤ s then (a * 10 ^ s.toNat, b) else (a, b * 10 ^ (-s).toNat)

/-- Whether `10 ^ e ≤ a / b` for a signed exponent. -/
def pow10Le (e : Int) (a b : Nat) : Bool :=
  if 0 ≤ e then decide (10 ^ e.toNat * b ≤ a) else decide (b ≤ a * 10 ^ (-e).toNat)

/-- A non-negative Python float: a finite double (represented by its exact
value `num / den`, where `den` is a power of two) or positive infinity. -/
inductive PyFloat where
  | finite (num den : Nat)
  | inf

/-- The IEEE-754 binary64 value nearest to the positive fraction `a / b`:
scale into `[2 ^ 52, 2 ^ 53)` by a power of two found from the bit lengths
of `a` and `b` plus one correction step, round the 53-bit significand to
nearest with ties to even, and overflow to infinity at `2 ^ 1024`.  (The
values reached through this module are at least `1/1000`, far above the
subnormal range, so gradual underflow does not need to be modelled.) -/
def roundToDouble (a b : Nat) : PyFloat :=
  let la : Int := floorLog2 a
  let lb : Int := floorLog2 b
  let s0 : Int := 52 - (la - lb)
  let p0 := fracMulPow2 a b s0
  let s : Int := if p0.1 < 2 ^ 52 * p0.2 then s0 + 1 else s0
  let p := fracMulPow2 a b s
  let m := roundHalfEvenFrac p.1 p.2
  if 0 ≤ s then
    if 2 ^ 1024 * 2 ^ s.toNat ≤ m then PyFloat.inf else PyFloat.finite m (2 ^ s.toNat)
  else
    let mv := m * 2 ^ (-s).toNat
    if 2 ^ 1024 ≤ mv then PyFloat.inf else PyFloat.finite mv 1

/-- Python `float(<digit string>)`: the double nearest to the integer
value; `strtod` overflows to infinity without raising. -/
def pyFloatOfNat (n : Nat) : PyFloat :=
  if n = 0 then PyFloat.finite 0 1 else roundToDouble n 1

/-- Division of a Python float by 1000 (`_MILLISECONDS_PER_SECOND`): the
exact quotient rounded back to the nearest double. -/
def pyFloatDiv1000 : PyFloat → PyFloat
  | PyFloat.inf => PyFloat.inf
  | PyFloat.finite num den =>
    if num = 0 then PyFloat.finite 0 1 else roundToDouble num (den * 1000)

/-- Largest `e` with `10 ^ e ≤ a / b`, for a positive fraction, found from
the decimal digit lengths of `a` and `b` and one correction step. -/
def decExp (a b : Nat) : Int :=
  let e : Int := (digitsLen a : Int) - (digitsLen b : Int)
  if pow10Le e a b then e else e - 1

/-- Remove trailing `0` characters. -/
def stripTrailingZeros (s : String) : String :=
  String.mk ((s.toList.reverse.dropWhile (fun c => c == '0')).reverse)

/-- Python 2 `str()` of a non-negative float, as used by the source's
string interpolation of a float: the `%.12g` conversion — twelve
significant digits, correctly rounded with ties to even, fixed-point
notation when the decimal exponent lies in `[-4, 12)` and exponential
notation otherwise, trailing zeros removed — with `.0` appended to
integral-looking fixed-point results (`Py_DTSF_ADD_DOT_0`). -/
def pyStrFloat : PyFloat → String
  | PyFloat.inf => "inf"
  | PyFloat.finite num den =>
    if num = 0 then "0.0"
    else
      let e0 := decExp num den
      let p := fracMulPow10 num den (11 - e0)
      let d0 := roundHalfEvenFrac p.1 p.2
      let de := if d0 = 10 ^ 12 then ((10 : Nat) ^ 11, e0 + 1) else (d0, e0)
      let d := de.1
      let e := de.2
      let digits := toString d
      if e < -4 ∨ 12 ≤ e then
        let mant := stripTrailingZeros digits
        let mantStr :=
          if mant.length = 1 then mant
          else String.mk (mant.toList.take 1) ++ "." ++ String.mk (mant.toList.drop 1)
        let ea := e.natAbs
        let expDigits := if ea < 10 then "0" ++ toString ea else toString ea
        mantStr ++ "e" ++ (if e < 0 then "-" else "+") ++ expDigits
      else if 0 ≤ e then
        let k := e.toNat + 1
        let intPart := String.mk (digits.toList.take k)
        let fracPart := stripTrailingZeros (String.mk (digits.toList.drop k))
        if fracPart = "" then intPart ++ ".0" else intPart ++ "." ++ fracPart
      else
        "0." ++ String.mk (List.replicate (e.natAbs - 1) '0') ++ stripTrailingZeros digits

/-- Embedding of `LatencyToDuration(value)`: validates against the pending
latency pattern, maps `automatic` to no value, converts a millisecond
value to seconds, and passes any other matching value through. -/
def LatencyToDuration (value : String) : Except PyError (Option String) :=
  if !pendingLatencyMatch value then
    Except.error (PyError.valueError ("Unrecognized latency: " ++ value))
  else if value == "automatic" then
    Except.ok none
  else if List.isSuffixOf ['m', 's'] value.toList then
    match digitsToNat? (value.toList.dropLast.dropLast) with
    | some n => Except.ok (some (pyStrFloat (pyFloatDiv1000 (pyFloatOfNat n)) ++ "s"))
    | none => Except.error (PyError.valueError ("could not convert string to float: " ++ value))
  else
    Except.ok (some value)

/-- Embedding of `_COMMON_HANDLER_FIELDS`. -/
def _COMMON_HANDLER_FIELDS : List String :=
  ["urlRegex", "login", "authFailAction", "securityLevel", "redirectHttpResponseCode"]

/-- Embedding of `_SCRIPT_FIELDS`. -/
def _SCRIPT_FIELDS : List String :=
  ["scriptPath"]

/-- Embedding of the `_HANDLER_FIELDS` table as a lookup function on the
three canonical handler types. -/
def _HANDLER_FIELDS (handlerType : String) : List String :=
  if handlerType == "staticFiles" then
    ["path", "uploadPathRegex", "httpHeaders", "expiration", "applicationReadable",
     "mimeType", "requireMatchingFile"]
  else if handlerType == "script" then _SCRIPT_FIELDS
  else if handlerType == "apiEndpoint" then _SCRIPT_FIELDS
  else []

/-- Embedding of `_GetHandlerType(handler)`: discriminant-field precedence. -/
def _GetHandlerType (handler : Dict) : Except PyError String :=
  if dictContains handler "apiEndpoint" then Except.ok "apiEndpoint"
  else if dictContains handler "staticDir" then Except.ok "staticDirectory"
  else if dictContains handler "path" then Except.ok "staticFiles"
  else if dictContains handler "scriptPath" then Except.ok "script"
  else Except.error (PyError.valueError "Unrecognized handler type")

/-- Embedding of `AppendRegexToPath(path, regex)`: forward-slash join after
stripping the left operand's trailing slashes.  A non-string left operand
has no `rstrip` method, which is an `AttributeError` in Python. -/
def AppendRegexToPath (path : PyVal) (regex : String) : Except PyError String :=
  match path with
  | PyVal.str s => Except.ok (pyRstripSlashes s ++ "/" ++ regex)
  | _ => Except.error (PyError.attributeError "rstrip")

/-- One copy loop of `ConvertUrlHandler`: for each listed field present in
`src`, copy its value into `acc`. -/
def copyFields (src : Dict) (fields : List String) (acc : Dict) : Dict :=
  fields.foldl
    (fun acc f =>
      match dictGet? src f with
      | some v => dictSet acc f v
      | none => acc)
    acc

/-- Final restructuring step of `ConvertUrlHandler`: a fresh record holding
the type sub-message (fields from the type's allowlist) and the common
fields copied to the top level. -/
def restructure (handlerType : String) (src : Dict) : Dict :=
  copyFields src _COMMON_HANDLER_FIELDS
    [(handlerType, PyVal.dict (copyFields src (_HANDLER_FIELDS handlerType) []))]

/-- Embedding of `ConvertUrlHandler(handler)`.  The Python function mutates
its argument in the `staticDirectory` sugar case, so the embedding returns
both the restructured record and the final state of the argument. -/
def ConvertUrlHandler (handler : Dict) : Except PyError (Dict × Dict) :=
  match _GetHandlerType handler with
  | Except.error e => Except.error e
  | Except.ok handlerType =>
    if handlerType == "staticDirectory" then
      match dictGetItem handler "staticDir" with
      | Except.error e => Except.error e
      | Except.ok sd =>
        match AppendRegexToPath sd "\\1" with
        | Except.error e => Except.error e
        | Except.ok p =>
          match AppendRegexToPath sd ".*" with
          | Except.error e => Except.error e
          | Except.ok upr =>
            match dictGetItem handler "urlRegex" with
            | Except.error e => Except.error e
            | Except.ok ur =>
              match AppendRegexToPath ur "(.*)" with
              | Except.error e => Except.error e
              | Except.ok urr =>
                let h2 := dictSet (dictSet (dictSet (dictErase handler "staticDir")
                  "path" (PyVal.str p)) "uploadPathRegex" (PyVal.str upr))
                  "urlRegex" (PyVal.str urr)
                Except.ok (restructure "staticFiles" h2, h2)
    else
      Except.ok (restructure handlerType handler, handler)

/-- Number of the three canonical handler type keys present in a record. -/
def canonicalTypeKeyCount (d : Dict) : Nat :=
  (List.filter (fun k => dictContains d k) ["staticFiles", "script", "apiEndpoint"]).length

/-! ### Association-list lemmas -/

theorem dictContains_eq_isSome (d : Dict) (k : String) :
    dictContains d k = (dictGet? d k).isSome := by
  induction d with
  | nil => rfl
  | cons p d ih =>
    obtain ⟨a, b⟩ := p
    cases hab : a == k <;> simp [dictContains, dictGet?, hab, ih]

theorem dictGet?_eq_none_of_not_contains (d : Dict) (k : String)
    (h : dictContains d k = false) : dictGet? d k = none := by
  have hh := dictContains_eq_isSome d k
  rw [h] at hh
  cases hg : dictGet? d k
  · rfl
  · rw [hg] at hh
    cases hh

theorem dictGet?_dictReplace_self (d : Dict) (k : String) (v : PyVal)
    (h : dictContains d k = true) : dictGet? (dictReplace d k v) k = some v := by
  induction d with
  | nil => cases h
  | cons p d ih =>
    obtain ⟨a, b⟩ := p
    cases hab : a == k with
    | true => simp [dictReplace, dictGet?, hab]
    | false =>
      simp only [dictContains, hab, Bool.false_or] at h
      simp [dictReplace, dictGet?, hab, ih h]

theorem dictGet?_dictReplace_ne (d : Dict) (k : String) (v : PyVal) (k' : String)
    (h : k' ≠ k) : dictGet? (dictReplace d k v) k' = dictGet? d k' := by
  induction d with
  | nil => rfl
  | cons p d ih =>
    obtain ⟨a, b⟩ := p
    cases hab : a == k with
    | true =>
      have ha : a = k := beq_iff_eq.mp hab
      have hk' : (k == k') = false := beq_eq_false_iff_ne.mpr fun hh => h hh.symm
      have hak' : (a == k') = false := by rw [ha]; exact hk'
      simp [dictReplace, dictGet?, hab, hk', hak', ih]
    | false => simp [dictReplace, dictGet?, hab, ih]

theorem dictGet?_append (d₁ d₂ : Dict) (k : String) :
    dictGet? (d₁ ++ d₂) k =
      match dictGet? d₁ k with
      | some v => some v
      | none => dictGet? d₂ k := by
  induction d₁ with
  | nil => simp [dictGet?]
  | cons p d ih =>
    obtain ⟨a, b⟩ := p
    cases hab : a == k <;> simp [dictGet?, hab, ih]

theorem dictGet?_dictSet_self (d : Dict) (k : String) (v : PyVal) :
    dictGet? (dictSet d k v) k = some v := by
  unfold dictSet
  cases hc : dictContains d k with
  | true => simp [dictGet?_dictReplace_self d k v hc]
  | false =>
    have hnone := dictGet?_eq_none_of_not_contains d k hc
    simp [dictGet?_append, hnone, dictGet?]

theorem dictGet?_dictSet_ne (d : Dict) (k : String) (v : PyVal) (k' : String)
    (h : k' ≠ k) : dictGet? (dictSet d k v) k' = dictGet? d k' := by
  unfold dictSet
  cases hc : dictContains d k with
  | true => simp [dictGet?_dictReplace_ne d k v k' h]
  | false =>
    rw [if_neg (by simp), dictGet?_append]
    have hkk : (k == k') = false := beq_eq_false_iff_ne.mpr fun hh => h hh.symm
    cases hg : dictGet? d k' <;> simp [dictGet?, hkk, hg]

theorem dictGet?_dictSet (d : Dict) (k : String) (v : PyVal) (k' : String) :
    dictGet? (dictSet d k v) k' = if k' = k then some v else dictGet? d k' := by
  by_cases h : k' = k
  · subst h
    simp [dictGet?_dictSet_self]
  · simp [h, dictGet?_dictSet_ne d k v k' h]

theorem dictGet?_dictErase (d : Dict) (k k' : String) :
    dictGet? (dictErase d k) k' = if k' = k then none else dictGet? d k' := by
  induction d with
  | nil => simp [dictErase, dictGet?]
  | cons p d ih =>
    obtain ⟨a, b⟩ := p
    by_cases hk : k' = k
    · subst hk
      cases hab : a == k' <;> simp [dictErase, dictGet?, hab, ih]
    · have h1 : (a == k) = true → (a == k') = false := by
        intro hh
        have ha : a = k := beq_iff_eq.mp hh
        rw [ha]
        exact beq_eq_false_iff_ne.mpr fun hh2 => hk hh2.symm
      cases hab : a == k with
      | true => simp [dictErase, dictGet?, hab, h1 hab, ih, hk]
      | false => cases hab2 : a == k' <;> simp [dictErase, dictGet?, hab, hab2, ih, hk]

theorem dictContains_dictSet (d : Dict) (k : String) (v : PyVal) (k' : String) :
    dictContains (dictSet d k v) k' = if k' = k then true else dictContains d k' := by
  rw [dictContains_eq_isSome, dictGet?_dictSet]
  by_cases hk : k' = k <;> simp [hk, dictContains_eq_isSome]

theorem dictContains_dictErase (d : Dict) (k k' : String) :
    dictContains (dictErase d k) k' = if k' = k then false else dictContains d k' := by
  rw [dictContains_eq_isSome, dictGet?_dictErase]
  by_cases hk : k' = k <;> simp [hk, dictContains_eq_isSome]

/-! ### Lemmas about the copy loops and the restructuring -/

theorem copyFields_cons (src : Dict) (f : String) (fs : List String) (acc : Dict) :
    copyFields src (f :: fs) acc =
      copyFields src fs
        (match dictGet? src f with
         | some v => dictSet acc f v
         | none => acc) := rfl

theorem dictGet?_copyFields (src : Dict) (fields : List String) (acc : Dict) (k : String) :
    dictGet? (copyFields src fields acc) k =
      if k ∈ fields then
        match dictGet? src k with
        | some v => some v
        | none => dictGet? acc k
      else dictGet? acc k := by
  induction fields generalizing acc with
  | nil => simp [copyFields]
  | cons f fs ih =>
    rw [copyFields_cons, ih]
    by_cases hkf : k = f
    · subst hkf
      by_cases hmem : k ∈ fs
      · simp only [hmem, if_true, List.mem_cons, true_or]
        cases hsrc : dictGet? src k <;> simp [hsrc]
      · simp only [hmem, if_false, List.mem_cons, true_or, if_true]
        cases hsrc : dictGet? src k <;> simp [hsrc, dictGet?_dictSet_self]
    · simp only [List.mem_cons, hkf, false_or]
      by_cases hmem : k ∈ fs
      · simp only [hmem, if_true]
        cases hsrc : dictGet? src k <;> cases hsrcf : dictGet? src f <;>
          simp [hsrc, hsrcf, dictGet?_dictSet_ne _ _ _ _ hkf]
      · simp only [hmem, if_false]
        cases hsrcf : dictGet? src f <;>
          simp [hsrcf, dictGet?_dictSet_ne _ _ _ _ hkf]

theorem dictContains_copyFields (src : Dict) (fields : List String) (acc : Dict) (k : String) :
    dictContains (copyFields src fields acc) k =
      if k ∈ fields then (dictContains src k || dictContains acc k)
      else dictContains acc k := by
  rw [dictContains_eq_isSome, dictGet?_copyFields]
  by_cases hmem : k ∈ fields
  · simp only [hmem, if_true]
    rw [dictContains_eq_isSome, dictContains_eq_isSome]
    cases dictGet? src k <;> simp
  · simp [hmem, dictContains_eq_isSome]

theorem dictGet?_restructure (handlerType : String) (src : Dict) (k : String) :
    dictGet? (restructure handlerType src) k =
      if k ∈ _COMMON_HANDLER_FIELDS then
        match dictGet? src k with
        | some v => some v
        | none =>
          if handlerType = k then
            some (PyVal.dict (copyFields src (_HANDLER_FIELDS handlerType) []))
          else none
      else
        if handlerType = k then
          some (PyVal.dict (copyFields src (_HANDLER_FIELDS handlerType) []))
        else none := by
  unfold restructure
  rw [dictGet?_copyFields]
  have hsingle : dictGet? [(handlerType, PyVal.dict (copyFields src (_HANDLER_FIELDS handlerType) []))] k =
      if handlerType = k then
        some (PyVal.dict (copyFields src (_HANDLER_FIELDS handlerType) []))
      else none := by
    by_cases hg : handlerType = k <;> simp [dictGet?, hg]
  by_cases hmem : k ∈ _COMMON_HANDLER_FIELDS
  · simp only [hmem, if_true]
    cases dictGet? src k <;> simp [hsingle]
  · simp [hmem, hsingle]

theorem getHandlerType_ok_cases (handler : Dict) (t : String)
    (hok : _GetHandlerType handler = Except.ok t) :
    t = "apiEndpoint" ∨ t = "staticDirectory" ∨ t = "staticFiles" ∨ t = "script" := by
  unfold _GetHandlerType at hok
  repeat' split at hok
  all_goals simp_all

theorem getHandlerType_staticDirectory_iff (handler : Dict) :
    _GetHandlerType handler = Except.ok "staticDirectory" ↔
      dictContains handler "apiEndpoint" = false ∧
      dictContains handler "staticDir" = true := by
  unfold _GetHandlerType
  constructor
  · intro hok
    repeat' split at hok
    all_goals simp_all
  · intro ⟨h1, h2⟩
    simp [h1, h2]

theorem convertUrlHandler_non_sugar (handler : Dict) (t : String)
    (hok : _GetHandlerType handler = Except.ok t)
    (hne : t ≠ "staticDirectory") :
    ConvertUrlHandler handler = Except.ok (restructure t handler, handler) := by
  unfold ConvertUrlHandler
  rw [hok]
  dsimp only
  rw [if_neg (by simp [hne])]

theorem convertUrlHandler_sugar_ok (handler : Dict) (d u : String)
    (hapi : dictContains handler "apiEndpoint" = false)
    (hsd : dictGet? handler "staticDir" = some (PyVal.str d))
    (hur : dictGet? handler "urlRegex" = some (PyVal.str u)) :
    ConvertUrlHandler handler =
      Except.ok
        (restructure "staticFiles"
          (dictSet (dictSet (dictSet (dictErase handler "staticDir")
            "path" (PyVal.str (pyRstripSlashes d ++ "/" ++ "\\1")))
            "uploadPathRegex" (PyVal.str (pyRstripSlashes d ++ "/" ++ ".*")))
            "urlRegex" (PyVal.str (pyRstripSlashes u ++ "/" ++ "(.*)"))),
         dictSet (dictSet (dictSet (dictErase handler "staticDir")
            "path" (PyVal.str (pyRstripSlashes d ++ "/" ++ "\\1")))
            "uploadPathRegex" (PyVal.str (pyRstripSlashes d ++ "/" ++ ".*")))
            "urlRegex" (PyVal.str (pyRstripSlashes u ++ "/" ++ "(.*)"))) := by
  have hcsd : dictContains handler "staticDir" = true := by
    rw [dictContains_eq_isSome, hsd]
    rfl
  have hgt : _GetHandlerType handler = Except.ok "staticDirectory" :=
    (getHandlerType_staticDirectory_iff handler).mpr ⟨hapi, hcsd⟩
  unfold ConvertUrlHandler
  rw [hgt]
  dsimp only
  rw [if_pos (by simp)]
  unfold dictGetItem
  rw [hsd, hur]
  rfl

theorem convertUrlHandler_sugar_keyError (handler : Dict) (d : String)
    (hapi : dictContains handler "apiEndpoint" = false)
    (hsd : dictGet? handler "staticDir" = some (PyVal.str d))
    (hur : dictContains handler "urlRegex" = false) :
    ConvertUrlHandler handler = Except.error (PyError.keyError "urlRegex") := by
  have hcsd : dictContains handler "staticDir" = true := by
    rw [dictContains_eq_isSome, hsd]
    rfl
  have hgt : _GetHandlerType handler = Except.ok "staticDirectory" :=
    (getHandlerType_staticDirectory_iff handler).mpr ⟨hapi, hcsd⟩
  have hurn : dictGet? handler "urlRegex" = none :=
    dictGet?_eq_none_of_not_contains handler "urlRegex" hur
  unfold ConvertUrlHandler
  rw [hgt]
  dsimp only
  rw [if_pos (by simp)]
  unfold dictGetItem
  rw [hsd, hurn]
  rfl

theorem convertUrlHandler_ok_inversion (handler out h2 : Dict)
    (hok : ConvertUrlHandler handler = Except.ok (out, h2)) :
    ∃ t, (t = "staticFiles" ∨ t = "script" ∨ t = "apiEndpoint") ∧
      out = restructure t h2 := by
  unfold ConvertUrlHandler at hok
  cases hgt : _GetHandlerType handler with
  | error e => rw [hgt] at hok; cases hok
  | ok t =>
    rw [hgt] at hok
    dsimp only at hok
    by_cases hsd : t = "staticDirectory"
    · rw [if_pos (by simp [hsd])] at hok
      repeat' split at hok
      all_goals first
        | (exact ⟨"staticFiles", Or.inl rfl, rfl⟩)
        | (injection hok with hok
           injection hok with hout hh2
           exact ⟨"staticFiles", Or.inl rfl, by rw [← hout, hh2]⟩)
        | (injection hok)
    · rw [if_neg (by simp [hsd])] at hok
      injection hok with hok
      injection hok with hout hh2
      rcases getHandlerType_ok_cases handler t hgt with h | h | h | h
      · exact ⟨t, by simp [h], by rw [← hout, hh2]⟩
      · exact absurd h hsd
      · exact ⟨t, by simp [h], by rw [← hout, hh2]⟩
      · exact ⟨t, by simp [h], by rw [← hout, hh2]⟩

theorem canonicalTypeKeyCount_restructure (t : String) (src : Dict)
    (ht : t = "staticFiles" ∨ t = "script" ∨ t = "apiEndpoint") :
    canonicalTypeKeyCount (restructure t src) = 1 := by
  have hone : ∀ k : String, dictContains (restructure t src) k =
      if k ∈ _COMMON_HANDLER_FIELDS then (dictContains src k || dictContains [(t, PyVal.dict (copyFields src (_HANDLER_FIELDS t) []))] k)
      else dictContains [(t, PyVal.dict (copyFields src (_HANDLER_FIELDS t) []))] k := by
    intro k
    unfold restructure
    exact dictContains_copyFields src _COMMON_HANDLER_FIELDS _ k
  unfold canonicalTypeKeyCount
  rcases ht with rfl | rfl | rfl <;>
    simp [hone, dictContains, _COMMON_HANDLER_FIELDS]

theorem sugarState_dictGet? (handler : Dict) (p u2 r : PyVal) (k : String) :
    dictGet? (dictSet (dictSet (dictSet (dictErase handler "staticDir")
        "path" p) "uploadPathRegex" u2) "urlRegex" r) k =
      if k = "urlRegex" then some r
      else if k = "uploadPathRegex" then some u2
      else if k = "path" then some p
      else if k = "staticDir" then none
      else dictGet? handler k := by
  rw [dictGet?_dictSet, dictGet?_dictSet, dictGet?_dictSet, dictGet?_dictErase]

theorem sugarState_dictContains (handler : Dict) (p u2 r : PyVal) (k : String) :
    dictContains (dictSet (dictSet (dictSet (dictErase handler "staticDir")
        "path" p) "uploadPathRegex" u2) "urlRegex" r) k =
      if k = "urlRegex" then true
      else if k = "uploadPathRegex" then true
      else if k = "path" then true
      else if k = "staticDir" then false
      else dictContains handler k := by
  rw [dictContains_dictSet, dictContains_dictSet, dictContains_dictSet, dictContains_dictErase]

theorem convertUrlHandler_sugar_badStaticDir (handler : Dict) (v : PyVal)
    (hapi : dictContains handler "apiEndpoint" = false)
    (hsd : dictGet? handler "staticDir" = some v)
    (hnotstr : ∀ s, v ≠ PyVal.str s) :
    ConvertUrlHandler handler = Except.error (PyError.attributeError "rstrip") := by
  have hcsd : dictContains handler "staticDir" = true := by
    rw [dictContains_eq_isSome, hsd]
    rfl
  have hgt : _GetHandlerType handler = Except.ok "staticDirectory" :=
    (getHandlerType_staticDirectory_iff handler).mpr ⟨hapi, hcsd⟩
  unfold ConvertUrlHandler
  rw [hgt]
  dsimp only
  rw [if_pos (by simp)]
  unfold dictGetItem
  rw [hsd]
  cases v with
  | str s => exact absurd rfl (hnotstr s)
  | int n => rfl
  | bool b => rfl
  | list elems => rfl
  | dict items => rfl

theorem convertUrlHandler_sugar_badUrlRegex (handler : Dict) (d : String) (v : PyVal)
    (hapi : dictContains handler "apiEndpoint" = false)
    (hsd : dictGet? handler "staticDir" = some (PyVal.str d))
    (hur : dictGet? handler "urlRegex" = some v)
    (hnotstr : ∀ s, v ≠ PyVal.str s) :
    ConvertUrlHandler handler = Except.error (PyError.attributeError "rstrip") := by
  have hcsd : dictContains handler "staticDir" = true := by
    rw [dictContains_eq_isSome, hsd]
    rfl
  have hgt : _GetHandlerType handler = Except.ok "staticDirectory" :=
    (getHandlerType_staticDirectory_iff handler).mpr ⟨hapi, hcsd⟩
  unfold ConvertUrlHandler
  rw [hgt]
  dsimp only
  rw [if_pos (by simp)]
  unfold dictGetItem
  rw [hsd, hur]
  cases v with
  | str s => exact absurd rfl (hnotstr s)
  | int n => rfl
  | bool b => rfl
  | list elems => rfl
  | dict items => rfl

/-! ### Claim theorems -/

/-- C1: for a handler whose resolved type is `staticDirectory` (it contains
`staticDir` and not `apiEndpoint`, with string values for `staticDir` and
`urlRegex`), `ConvertUrlHandler` returns a record whose top-level `urlRegex`
is the input `urlRegex` with trailing slashes stripped joined by a forward
slash with `(.*)`, whose `staticFiles` sub-message holds `path` (directory
joined with the literal back-reference `\1`) and `uploadPathRegex`
(directory joined with `.*`), and which contains neither a `staticDir` nor
a `staticDirectory` key. -/
theorem convertUrlHandler_staticDirectory_sugar (handler : Dict) (d u : String)
    (hapi : dictContains handler "apiEndpoint" = false)
    (hsd : dictGet? handler "staticDir" = some (PyVal.str d))
    (hur : dictGet? handler "urlRegex" = some (PyVal.str u)) :
    ∃ out h2 sub, ConvertUrlHandler handler = Except.ok (out, h2) ∧
      dictGet? out "urlRegex" = some (PyVal.str (pyRstripSlashes u ++ "/" ++ "(.*)")) ∧
      dictGet? out "staticFiles" = some (PyVal.dict sub) ∧
      dictGet? sub "path" = some (PyVal.str (pyRstripSlashes d ++ "/" ++ "\\1")) ∧
      dictGet? sub "uploadPathRegex" = some (PyVal.str (pyRstripSlashes d ++ "/" ++ ".*")) ∧
      dictContains out "staticDir" = false ∧
      dictContains out "staticDirectory" = false := by
  have hmain := convertUrlHandler_sugar_ok handler d u hapi hsd hur
  refine ⟨_, _, copyFields
      (dictSet (dictSet (dictSet (dictErase handler "staticDir")
        "path" (PyVal.str (pyRstripSlashes d ++ "/" ++ "\\1")))
        "uploadPathRegex" (PyVal.str (pyRstripSlashes d ++ "/" ++ ".*")))
        "urlRegex" (PyVal.str (pyRstripSlashes u ++ "/" ++ "(.*)")))
      (_HANDLER_FIELDS "staticFiles") [], hmain, ?_, ?_, ?_, ?_, ?_, ?_⟩
  · rw [dictGet?_restructure]
    simp [_COMMON_HANDLER_FIELDS, sugarState_dictGet?]
  · rw [dictGet?_restructure]
    simp [_COMMON_HANDLER_FIELDS]
  · rw [dictGet?_copyFields]
    simp [_HANDLER_FIELDS, sugarState_dictGet?]
  · rw [dictGet?_copyFields]
    simp [_HANDLER_FIELDS, sugarState_dictGet?]
  · rw [dictContains_eq_isSome, dictGet?_restructure]
    simp [_COMMON_HANDLER_FIELDS]
  · rw [dictContains_eq_isSome, dictGet?_restructure]
    simp [_COMMON_HANDLER_FIELDS]

/-- C1 witness: the spec's sugar example, `urlRegex` `foo` with `staticDir`
`static_files`. -/
theorem convertUrlHandler_staticDirectory_sugar_witness :
    ∃ out h2 sub,
      ConvertUrlHandler [("urlRegex", PyVal.str "foo"), ("staticDir", PyVal.str "static_files")] =
        Except.ok (out, h2) ∧
      dictGet? out "urlRegex" = some (PyVal.str (pyRstripSlashes "foo" ++ "/" ++ "(.*)")) ∧
      dictGet? out "staticFiles" = some (PyVal.dict sub) ∧
      dictGet? sub "path" = some (PyVal.str (pyRstripSlashes "static_files" ++ "/" ++ "\\1")) ∧
      dictGet? sub "uploadPathRegex" = some (PyVal.str (pyRstripSlashes "static_files" ++ "/" ++ ".*")) ∧
      dictContains out "staticDir" = false ∧
      dictContains out "staticDirectory" = false :=
  convertUrlHandler_staticDirectory_sugar
    [("urlRegex", PyVal.str "foo"), ("staticDir", PyVal.str "static_files")]
    "static_files" "foo" rfl rfl rfl

/-- C2 counterexample: on the `staticDirectory` sugar input
`urlRegex = foo`, `staticDir = static_files`, the common field `urlRegex`
is present in the input with value `foo` but appears at the top level of
the output with the rewritten value `foo/(.*)`, so a common field does not
keep its input value. -/
theorem convertUrlHandler_common_field_rewritten :
    dictGet? [("urlRegex", PyVal.str "foo"), ("staticDir", PyVal.str "static_files")]
        "urlRegex" = some (PyVal.str "foo") ∧
    ConvertUrlHandler [("urlRegex", PyVal.str "foo"), ("staticDir", PyVal.str "static_files")] =
      Except.ok
        ([("staticFiles", PyVal.dict
            [("path", PyVal.str "static_files/\\1"),
             ("uploadPathRegex", PyVal.str "static_files/.*")]),
          ("urlRegex", PyVal.str "foo/(.*)")],
         [("urlRegex", PyVal.str "foo/(.*)"),
          ("path", PyVal.str "static_files/\\1"),
          ("uploadPathRegex", PyVal.str "static_files/.*")]) ∧
    PyVal.str "foo/(.*)" ≠ PyVal.str "foo" :=
  ⟨rfl, rfl, by simp⟩

/-- C2 (amended): for every handler containing at least one discriminant
field and whose resolved type is not the `staticDirectory` sugar type, the
returned record has at most one of the three canonical type keys, every
common field present in the input appears at the top level with its input
value, and every field of the type sub-message equals the corresponding
input field.  (In the `staticDirectory` sugar case the top-level `urlRegex`
and the sub-message fields `path` and `uploadPathRegex` are the synthesized
values instead of the input values.) -/
theorem convertUrlHandler_restructure_invariant (handler : Dict) (t : String)
    (hok : _GetHandlerType handler = Except.ok t)
    (hne : t ≠ "staticDirectory") :
    ∃ out, ConvertUrlHandler handler = Except.ok (out, handler) ∧
      canonicalTypeKeyCount out ≤ 1 ∧
      (∀ c, c ∈ _COMMON_HANDLER_FIELDS → ∀ v, dictGet? handler c = some v →
        dictGet? out c = some v) ∧
      (∃ sub, dictGet? out t = some (PyVal.dict sub) ∧
        ∀ f v, dictGet? sub f = some v → dictGet? handler f = some v) := by
  have hmain := convertUrlHandler_non_sugar handler t hok hne
  have ht3 : t = "staticFiles" ∨ t = "script" ∨ t = "apiEndpoint" := by
    rcases getHandlerType_ok_cases handler t hok with h | h | h | h
    · exact Or.inr (Or.inr h)
    · exact absurd h hne
    · exact Or.inl h
    · exact Or.inr (Or.inl h)
  refine ⟨restructure t handler, hmain, ?_, ?_, ?_⟩
  · exact (canonicalTypeKeyCount_restructure t handler ht3).le
  · intro c hc v hv
    rw [dictGet?_restructure]
    simp [hc, hv]
  · refine ⟨copyFields handler (_HANDLER_FIELDS t) [], ?_, ?_⟩
    · rw [dictGet?_restructure]
      have htc : t ∉ _COMMON_HANDLER_FIELDS := by
        rcases ht3 with rfl | rfl | rfl <;> simp [_COMMON_HANDLER_FIELDS]
      simp [htc]
    · intro f v hf
      rw [dictGet?_copyFields] at hf
      by_cases hmem : f ∈ _HANDLER_FIELDS t
      · simp only [hmem, if_true] at hf
        cases hsrc : dictGet? handler f with
        | some w =>
          rw [hsrc] at hf
          simp at hf
          rw [hf]
        | none =>
          rw [hsrc] at hf
          simp [dictGet?] at hf
      · simp only [hmem, if_false] at hf
        simp [dictGet?] at hf

/-- C2 amended-theorem witness: the spec's direct static-files example. -/
theorem convertUrlHandler_restructure_invariant_witness :
    ∃ out,
      ConvertUrlHandler [("urlRegex", PyVal.str "foo/bar.html"),
          ("path", PyVal.str "static_files/foo/bar.html")] =
        Except.ok (out, [("urlRegex", PyVal.str "foo/bar.html"),
          ("path", PyVal.str "static_files/foo/bar.html")]) ∧
      canonicalTypeKeyCount out ≤ 1 ∧
      (∀ c, c ∈ _COMMON_HANDLER_FIELDS → ∀ v,
        dictGet? [("urlRegex", PyVal.str "foo/bar.html"),
          ("path", PyVal.str "static_files/foo/bar.html")] c = some v →
        dictGet? out c = some v) ∧
      (∃ sub, dictGet? out "staticFiles" = some (PyVal.dict sub) ∧
        ∀ f v, dictGet? sub f = some v →
          dictGet? [("urlRegex", PyVal.str "foo/bar.html"),
            ("path", PyVal.str "static_files/foo/bar.html")] f = some v) :=
  convertUrlHandler_restructure_invariant
    [("urlRegex", PyVal.str "foo/bar.html"), ("path", PyVal.str "static_files/foo/bar.html")]
    "staticFiles" rfl (by simp)

/-- C3: `_GetHandlerType` resolves `apiEndpoint`, then `staticDir` (to
`staticDirectory`), then `path` (to `staticFiles`), then `scriptPath` (to
`script`), first present discriminant winning, and raises a classification
`ValueError` exactly when none of the four discriminants is present. -/
theorem getHandlerType_precedence (handler : Dict) :
    (dictContains handler "apiEndpoint" = true →
      _GetHandlerType handler = Except.ok "apiEndpoint") ∧
    (dictContains handler "apiEndpoint" = false →
      dictContains handler "staticDir" = true →
      _GetHandlerType handler = Except.ok "staticDirectory") ∧
    (dictContains handler "apiEndpoint" = false →
      dictContains handler "staticDir" = false →
      dictContains handler "path" = true →
      _GetHandlerType handler = Except.ok "staticFiles") ∧
    (dictContains handler "apiEndpoint" = false →
      dictContains handler "staticDir" = false →
      dictContains handler "path" = false →
      dictContains handler "scriptPath" = true →
      _GetHandlerType handler = Except.ok "script") ∧
    ((∃ msg, _GetHandlerType handler = Except.error (PyError.valueError msg)) ↔
      (dictContains handler "apiEndpoint" = false ∧
       dictContains handler "staticDir" = false ∧
       dictContains handler "path" = false ∧
       dictContains handler "scriptPath" = false)) := by
  refine ⟨?_, ?_, ?_, ?_, ?_, ?_⟩
  · intro h1
    unfold _GetHandlerType
    simp [h1]
  · intro h1 h2
    unfold _GetHandlerType
    simp [h1, h2]
  · intro h1 h2 h3
    unfold _GetHandlerType
    simp [h1, h2, h3]
  · intro h1 h2 h3 h4
    unfold _GetHandlerType
    simp [h1, h2, h3, h4]
  · rintro ⟨msg, hmsg⟩
    unfold _GetHandlerType at hmsg
    repeat' split at hmsg
    all_goals simp_all
  · rintro ⟨h1, h2, h3, h4⟩
    exact ⟨"Unrecognized handler type", by unfold _GetHandlerType; simp [h1, h2, h3, h4]⟩

/-- C3 witness: precedence on a record with two discriminants, the
`apiEndpoint` case, and classification failure on a record with none. -/
theorem getHandlerType_precedence_witness :
    _GetHandlerType [("staticDir", PyVal.str "d"), ("path", PyVal.str "p")] =
      Except.ok "staticDirectory" ∧
    _GetHandlerType [("path", PyVal.str "p"), ("apiEndpoint", PyVal.int 1)] =
      Except.ok "apiEndpoint" ∧
    (∃ msg, _GetHandlerType [("login", PyVal.str "admin")] =
      Except.error (PyError.valueError msg)) :=
  ⟨(getHandlerType_precedence _).2.1 rfl rfl,
   (getHandlerType_precedence _).1 rfl,
   (getHandlerType_precedence _).2.2.2.2.mpr ⟨rfl, rfl, rfl, rfl⟩⟩

/-- C8: `ConvertUrlHandler` mutates its argument exactly in the
`staticDirectory` sugar case — `staticDir` is deleted and `path`,
`uploadPathRegex` and `urlRegex` are written into the argument — and for
every other resolved type the argument is returned completely unchanged. -/
theorem convertUrlHandler_frame (handler out h2 : Dict)
    (hok : ConvertUrlHandler handler = Except.ok (out, h2)) :
    (_GetHandlerType handler ≠ Except.ok "staticDirectory" → h2 = handler) ∧
    (_GetHandlerType handler = Except.ok "staticDirectory" →
      ∃ d u, dictGet? handler "staticDir" = some (PyVal.str d) ∧
        dictGet? handler "urlRegex" = some (PyVal.str u) ∧
        dictContains h2 "staticDir" = false ∧
        dictGet? h2 "path" = some (PyVal.str (pyRstripSlashes d ++ "/" ++ "\\1")) ∧
        dictGet? h2 "uploadPathRegex" = some (PyVal.str (pyRstripSlashes d ++ "/" ++ ".*")) ∧
        dictGet? h2 "urlRegex" = some (PyVal.str (pyRstripSlashes u ++ "/" ++ "(.*)")) ∧
        ∀ k, k ≠ "staticDir" → k ≠ "path" → k ≠ "uploadPathRegex" → k ≠ "urlRegex" →
          dictGet? h2 k = dictGet? handler k) := by
  cases hgt : _GetHandlerType handler with
  | error e =>
    unfold ConvertUrlHandler at hok
    rw [hgt] at hok
    cases hok
  | ok t =>
    by_cases hsdt : t = "staticDirectory"
    · subst hsdt
      constructor
      · intro hne
        exact absurd rfl hne
      · intro _
        have hapi : dictContains handler "apiEndpoint" = false :=
          ((getHandlerType_staticDirectory_iff handler).mp hgt).1
        have hcsd : dictContains handler "staticDir" = true :=
          ((getHandlerType_staticDirectory_iff handler).mp hgt).2
        have hsome : (dictGet? handler "staticDir").isSome = true := by
          rw [← dictContains_eq_isSome]
          exact hcsd
        obtain ⟨sdv, hsdv⟩ := Option.isSome_iff_exists.mp hsome
        cases sdv with
        | str d =>
          cases hurv : dictGet? handler "urlRegex" with
          | none =>
            have hbad := convertUrlHandler_sugar_keyError handler d hapi hsdv
              (by rw [dictContains_eq_isSome, hurv]; rfl)
            rw [hbad] at hok
            cases hok
          | some urv =>
            cases urv with
            | str u =>
              have hmain := convertUrlHandler_sugar_ok handler d u hapi hsdv hurv
              rw [hmain] at hok
              injection hok with hok
              injection hok with hout hh2
              refine ⟨d, u, hsdv, rfl, ?_, ?_, ?_, ?_, ?_⟩
              · rw [← hh2, sugarState_dictContains]
                rfl
              · rw [← hh2, sugarState_dictGet?]
                rfl
              · rw [← hh2, sugarState_dictGet?]
                rfl
              · rw [← hh2, sugarState_dictGet?]
                rfl
              · intro k hk1 hk2 hk3 hk4
                rw [← hh2, sugarState_dictGet?]
                simp [hk1, hk2, hk3, hk4]
            | int n =>
              rw [convertUrlHandler_sugar_badUrlRegex handler d _ hapi hsdv hurv
                (fun s h => by cases h)] at hok
              cases hok
            | bool b =>
              rw [convertUrlHandler_sugar_badUrlRegex handler d _ hapi hsdv hurv
                (fun s h => by cases h)] at hok
              cases hok
            | list elems =>
              rw [convertUrlHandler_sugar_badUrlRegex handler d _ hapi hsdv hurv
                (fun s h => by cases h)] at hok
              cases hok
            | dict items =>
              rw [convertUrlHandler_sugar_badUrlRegex handler d _ hapi hsdv hurv
                (fun s h => by cases h)] at hok
              cases hok
        | int n =>
          rw [convertUrlHandler_sugar_badStaticDir handler _ hapi hsdv
            (fun s h => by cases h)] at hok
          cases hok
        | bool b =>
          rw [convertUrlHandler_sugar_badStaticDir handler _ hapi hsdv
            (fun s h => by cases h)] at hok
          cases hok
        | list elems =>
          rw [convertUrlHandler_sugar_badStaticDir handler _ hapi hsdv
            (fun s h => by cases h)] at hok
          cases hok
        | dict items =>
          rw [convertUrlHandler_sugar_badStaticDir handler _ hapi hsdv
            (fun s h => by cases h)] at hok
          cases hok
    · have hmain := convertUrlHandler_non_sugar handler t hgt hsdt
      rw [hmain] at hok
      injection hok with hok
      injection hok with hout hh2
      constructor
      · intro _
        exact hh2.symm
      · intro hcontra
        injection hcontra with hcontra
        exact absurd hcontra hsdt

/-- C8 witness: the sugar input mutates its argument as described, and a
`script` input leaves its argument unchanged. -/
theorem convertUrlHandler_frame_witness :
    (∃ d u,
      dictGet? [("urlRegex", PyVal.str "foo"), ("staticDir", PyVal.str "sd")]
        "staticDir" = some (PyVal.str d) ∧
      dictGet? [("urlRegex", PyVal.str "foo"), ("staticDir", PyVal.str "sd")]
        "urlRegex" = some (PyVal.str u) ∧
      dictContains [("urlRegex", PyVal.str "foo/(.*)"), ("path", PyVal.str "sd/\\1"),
        ("uploadPathRegex", PyVal.str "sd/.*")] "staticDir" = false ∧
      dictGet? [("urlRegex", PyVal.str "foo/(.*)"), ("path", PyVal.str "sd/\\1"),
        ("uploadPathRegex", PyVal.str "sd/.*")] "path" =
        some (PyVal.str (pyRstripSlashes d ++ "/" ++ "\\1")) ∧
      dictGet? [("urlRegex", PyVal.str "foo/(.*)"), ("path", PyVal.str "sd/\\1"),
        ("uploadPathRegex", PyVal.str "sd/.*")] "uploadPathRegex" =
        some (PyVal.str (pyRstripSlashes d ++ "/" ++ ".*")) ∧
      dictGet? [("urlRegex", PyVal.str "foo/(.*)"), ("path", PyVal.str "sd/\\1"),
        ("uploadPathRegex", PyVal.str "sd/.*")] "urlRegex" =
        some (PyVal.str (pyRstripSlashes u ++ "/" ++ "(.*)")) ∧
      ∀ k, k ≠ "staticDir" → k ≠ "path" → k ≠ "uploadPathRegex" → k ≠ "urlRegex" →
        dictGet? [("urlRegex", PyVal.str "foo/(.*)"), ("path", PyVal.str "sd/\\1"),
          ("uploadPathRegex", PyVal.str "sd/.*")] k =
        dictGet? [("urlRegex", PyVal.str "foo"), ("staticDir", PyVal.str "sd")] k) ∧
    ([("scriptPath", PyVal.str "app.py")] : Dict) = [("scriptPath", PyVal.str "app.py")] :=
  ⟨(convertUrlHandler_frame [("urlRegex", PyVal.str "foo"), ("staticDir", PyVal.str "sd")]
      [("staticFiles", PyVal.dict [("path", PyVal.str "sd/\\1"),
        ("uploadPathRegex", PyVal.str "sd/.*")]), ("urlRegex", PyVal.str "foo/(.*)")]
      [("urlRegex", PyVal.str "foo/(.*)"), ("path", PyVal.str "sd/\\1"),
        ("uploadPathRegex", PyVal.str "sd/.*")] rfl).2 rfl,
   (convertUrlHandler_frame [("scriptPath", PyVal.str "app.py")]
      [("script", PyVal.dict [("scriptPath", PyVal.str "app.py")])]
      [("scriptPath", PyVal.str "app.py")] rfl).1
      (fun h => by injection h with h; exact absurd h (by decide))⟩

/-- C9: every successful `ConvertUrlHandler` output contains exactly one
canonical type key (even with an empty sub-message), the allowlists for
`apiEndpoint` and `script` hold only `scriptPath`, and the input
`apiEndpoint: v` yields exactly the output `apiEndpoint: \x7b\x7d` for any
value `v`. -/
theorem convertUrlHandler_single_type_key :
    (∀ handler out h2, ConvertUrlHandler handler = Except.ok (out, h2) →
      canonicalTypeKeyCount out = 1) ∧
    (∀ v, ConvertUrlHandler [("apiEndpoint", v)] =
      Except.ok ([("apiEndpoint", PyVal.dict [])], [("apiEndpoint", v)])) ∧
    _HANDLER_FIELDS "apiEndpoint" = ["scriptPath"] ∧
    _HANDLER_FIELDS "script" = ["scriptPath"] := by
  refine ⟨?_, ?_, rfl, rfl⟩
  · intro handler out h2 hok
    obtain ⟨t, ht, hout⟩ := convertUrlHandler_ok_inversion handler out h2 hok
    rw [hout]
    exact canonicalTypeKeyCount_restructure t h2 ht
  · intro v
    rfl

/-- C9 witness: the count is one on the output of a concrete `script`
handler conversion. -/
theorem convertUrlHandler_single_type_key_witness :
    canonicalTypeKeyCount
      [("script", PyVal.dict [("scriptPath", PyVal.str "app.py")])] = 1 :=
  convertUrlHandler_single_type_key.1 [("scriptPath", PyVal.str "app.py")]
    [("script", PyVal.dict [("scriptPath", PyVal.str "app.py")])]
    [("scriptPath", PyVal.str "app.py")] rfl

/-- C10: with `staticDir` present as a string and `apiEndpoint` absent, the
sugar expansion never hits a missing-key failure when `urlRegex` is present
as a string (the whole conversion succeeds); without `urlRegex` the lookup
`handler["urlRegex"]` raises a `KeyError`, which is not a `ValueError` of
the documented taxonomy. -/
theorem convertUrlHandler_sugar_safety (handler : Dict) (d : String)
    (hapi : dictContains handler "apiEndpoint" = false)
    (hsd : dictGet? handler "staticDir" = some (PyVal.str d)) :
    ((∃ u, dictGet? handler "urlRegex" = some (PyVal.str u)) →
      ∃ r, ConvertUrlHandler handler = Except.ok r) ∧
    (dictContains handler "urlRegex" = false →
      ConvertUrlHandler handler = Except.error (PyError.keyError "urlRegex") ∧
      ∀ msg, PyError.keyError "urlRegex" ≠ PyError.valueError msg) := by
  constructor
  · rintro ⟨u, hu⟩
    exact ⟨_, convertUrlHandler_sugar_ok handler d u hapi hsd hu⟩
  · intro hno
    exact ⟨convertUrlHandler_sugar_keyError handler d hapi hsd hno,
      fun msg h => by cases h⟩

/-- C10 witness: success with `urlRegex` present, `KeyError` without it. -/
theorem convertUrlHandler_sugar_safety_witness :
    (∃ r, ConvertUrlHandler [("staticDir", PyVal.str "s"), ("urlRegex", PyVal.str "u")] =
      Except.ok r) ∧
    ConvertUrlHandler [("staticDir", PyVal.str "s")] =
      Except.error (PyError.keyError "urlRegex") :=
  ⟨(convertUrlHandler_sugar_safety [("staticDir", PyVal.str "s"), ("urlRegex", PyVal.str "u")]
      "s" rfl rfl).1 ⟨"u", rfl⟩,
   ((convertUrlHandler_sugar_safety [("staticDir", PyVal.str "s")] "s" rfl rfl).2 rfl).1⟩

/-! ### Value-converter claim theorems -/

theorem char_isDigit_not_isWhitespace (c : Char) (h : c.isDigit = true) :
    c.isWhitespace = false := by
  by_contra hw
  rw [Bool.not_eq_false] at hw
  simp only [Char.isWhitespace, Bool.or_eq_true, decide_eq_true_eq, or_assoc] at hw
  rcases hw with rfl | rfl | rfl | rfl <;> exact absurd h (by decide)

theorem pyTrim_of_all_digits (cs : List Char) (h : cs.all Char.isDigit = true) :
    pyTrim cs = cs := by
  have hd : ∀ c ∈ cs, c.isDigit = true := by
    simpa [List.all_eq_true] using h
  have h1 : cs.dropWhile Char.isWhitespace = cs := by
    cases cs with
    | nil => rfl
    | cons c cs' =>
      have hc : c.isWhitespace = false :=
        char_isDigit_not_isWhitespace c (hd c (List.mem_cons_self c cs'))
      simp [List.dropWhile_cons, hc]
  have h2 : cs.reverse.dropWhile Char.isWhitespace = cs.reverse := by
    cases hrev : cs.reverse with
    | nil => rfl
    | cons c cs' =>
      have hmem : c ∈ cs := by
        rw [← List.mem_reverse, hrev]
        exact List.mem_cons_self c cs'
      have hc : c.isWhitespace = false :=
        char_isDigit_not_isWhitespace c (hd c hmem)
      simp [List.dropWhile_cons, hc]
  unfold pyTrim
  rw [h1, h2, List.reverse_reverse]

theorem pyIntCore_of_digits (cs : List Char) (n : Nat)
    (h : digitsToNat? cs = some n) : pyIntCore cs = some (Int.ofNat n) := by
  have hall : cs.all Char.isDigit = true := by
    unfold digitsToNat? at h
    by_cases hc : (!cs.isEmpty && cs.all Char.isDigit) = true
    · have hc2 := hc
      simp only [Bool.and_eq_true] at hc2
      exact hc2.2
    · rw [if_neg hc] at h
      cases h
  cases cs with
  | nil =>
    cases h
  | cons c ds =>
    have hcd : c.isDigit = true := by
      simp only [List.all_cons, Bool.and_eq_true] at hall
      exact hall.1
    have hm : c ≠ '-' := by
      intro hc
      rw [hc] at hcd
      exact absurd hcd (by decide)
    have hp : c ≠ '+' := by
      intro hc
      rw [hc] at hcd
      exact absurd hcd (by decide)
    unfold pyIntCore
    split
    · rename_i ds2 heq
      injection heq with h1 h2
      exact absurd h1 hm
    · rename_i ds2 heq
      injection heq with h1 h2
      exact absurd h1 hp
    · rw [h]
      rfl

theorem pyInt_of_digits (value : String) (n : Nat)
    (h : digitsToNat? value.toList = some n) :
    pyInt value = Except.ok (Int.ofNat n) := by
  have hall : value.toList.all Char.isDigit = true := by
    unfold digitsToNat? at h
    by_cases hc : (!value.toList.isEmpty && value.toList.all Char.isDigit) = true
    · have hc2 := hc
      simp only [Bool.and_eq_true] at hc2
      exact hc2.2
    · rw [if_neg hc] at h
      cases h
  unfold pyInt
  rw [pyTrim_of_all_digits value.toList hall, pyIntCore_of_digits value.toList n h]

/-- C4: `EnumConverter` fails with a `ValueError` at construction time
exactly when the prefix is empty, not entirely upper-case, or ends with an
underscore, and for every valid prefix the returned function maps `value`
to the prefix, an underscore, and the upper-cased value. -/
theorem enumConverter_spec (pfx : String) :
    ((∃ msg, EnumConverter pfx = Except.error (PyError.valueError msg)) ↔
      (pfx = "" ∨ pfx ≠ pyUpper pfx ∨ pyEndsWithChar pfx '_' = true)) ∧
    (∀ f, EnumConverter pfx = Except.ok f →
      ∀ value, f value = pfx ++ "_" ++ pyUpper value) := by
  constructor
  · constructor
    · rintro ⟨msg, hmsg⟩
      unfold EnumConverter at hmsg
      by_cases h0 : (pfx == "") = true
      · exact Or.inl (beq_iff_eq.mp h0)
      · rw [if_neg h0] at hmsg
        by_cases h1 : (!(pfx == pyUpper pfx)) = true
        · refine Or.inr (Or.inl ?_)
          have hb : (pfx == pyUpper pfx) = false := by
            cases hx : pfx == pyUpper pfx
            · rfl
            · rw [hx] at h1
              cases h1
          exact beq_eq_false_iff_ne.mp hb
        · rw [if_neg h1] at hmsg
          by_cases h2 : pyEndsWithChar pfx '_' = true
          · exact Or.inr (Or.inr h2)
          · rw [if_neg h2] at hmsg
            cases hmsg
    · intro h
      by_cases h0 : pfx = ""
      · subst h0
        exact ⟨"A prefix must be provided", rfl⟩
      have hne0 : ¬(pfx == "") = true := fun hh => h0 (beq_iff_eq.mp hh)
      by_cases h1 : pfx = pyUpper pfx
      · have h2 : pyEndsWithChar pfx '_' = true := by
          rcases h with h | h | h
          · exact absurd h h0
          · exact absurd h1 h
          · exact h
        refine ⟨"Prefix should not contain a trailing underscore", ?_⟩
        unfold EnumConverter
        have hb : (pfx == pyUpper pfx) = true := beq_iff_eq.mpr h1
        rw [if_neg hne0, if_neg (by rw [hb]; exact fun hh => by cases hh), if_pos h2]
      · refine ⟨"Upper-cased prefix must be provided", ?_⟩
        unfold EnumConverter
        have hb : (pfx == pyUpper pfx) = false := beq_eq_false_iff_ne.mpr h1
        rw [if_neg hne0, if_pos (by rw [hb]; rfl)]
  · intro f hf value
    unfold EnumConverter at hf
    by_cases h0 : (pfx == "") = true
    · rw [if_pos h0] at hf
      cases hf
    · rw [if_neg h0] at hf
      by_cases h1 : (!(pfx == pyUpper pfx)) = true
      · rw [if_pos h1] at hf
        cases hf
      · rw [if_neg h1] at hf
        by_cases h2 : pyEndsWithChar pfx '_' = true
        · rw [if_pos h2] at hf
          cases hf
        · rw [if_neg h2] at hf
          injection hf with hf
          exact (congrFun hf value).symm

/-- C4 witness: `STATUS` is accepted and maps `ok` to `STATUS_OK`; `status`
and `STATUS_` are rejected at construction time. -/
theorem enumConverter_spec_witness :
    EnumConverter "STATUS" = Except.ok (fun value => "STATUS" ++ "_" ++ pyUpper value) ∧
    (fun value => "STATUS" ++ "_" ++ pyUpper value) "ok" = "STATUS_OK" ∧
    (∃ msg, EnumConverter "status" = Except.error (PyError.valueError msg)) ∧
    (∃ msg, EnumConverter "STATUS_" = Except.error (PyError.valueError msg)) := by
  refine ⟨rfl, ?_, ?_, ?_⟩
  · have h := (enumConverter_spec "STATUS").2
      (fun value => "STATUS" ++ "_" ++ pyUpper value) rfl "ok"
    exact h.trans (by decide)
  · exact (enumConverter_spec "status").1.mpr (Or.inr (Or.inl (by decide)))
  · exact (enumConverter_spec "STATUS_").1.mpr (Or.inr (Or.inr (by decide)))

/-- C6: `ToJsonString` fails with a `ValueError` exactly on lists and
mappings, renders booleans as lower-case `true` and `false`, and renders
integers and strings textually. -/
theorem toJsonString_spec (value : PyVal) :
    ((∃ msg, ToJsonString value = Except.error (PyError.valueError msg)) ↔
      ((∃ elems, value = PyVal.list elems) ∨ (∃ items, value = PyVal.dict items))) ∧
    (∀ b, value = PyVal.bool b →
      ToJsonString value = Except.ok (if b then "true" else "false")) ∧
    (∀ n, value = PyVal.int n → ToJsonString value = Except.ok (toString n)) ∧
    (∀ s, value = PyVal.str s → ToJsonString value = Except.ok s) := by
  refine ⟨⟨?_, ?_⟩, ?_, ?_, ?_⟩
  · rintro ⟨msg, hmsg⟩
    cases value <;> simp_all [ToJsonString]
  · rintro (⟨elems, rfl⟩ | ⟨items, rfl⟩) <;> exact ⟨"Expected a primitive value", rfl⟩
  · rintro b rfl
    rfl
  · rintro n rfl
    rfl
  · rintro s rfl
    rfl

/-- C6 witness: `True` renders as `true`, `3` as `3`, and a list fails. -/
theorem toJsonString_spec_witness :
    ToJsonString (PyVal.bool true) = Except.ok "true" ∧
    ToJsonString (PyVal.int 3) = Except.ok "3" ∧
    (∃ msg, ToJsonString (PyVal.list [PyVal.int 1]) =
      Except.error (PyError.valueError msg)) :=
  ⟨(toJsonString_spec (PyVal.bool true)).2.1 true rfl,
   (toJsonString_spec (PyVal.int 3)).2.2.1 3 rfl,
   (toJsonString_spec (PyVal.list [PyVal.int 1])).1.mpr (Or.inl ⟨[PyVal.int 1], rfl⟩)⟩

/-- C7: the function returned by `StringToInt` maps the string `automatic`
to `0` when `handle_automatic` is enabled, and in every other case performs
standard integer parsing — returning the parsed integer on digit strings
and failing with a `ValueError` on non-numeric input (including
`automatic` when `handle_automatic` is disabled). -/
theorem stringToInt_spec (handleAutomatic : Bool) (value : String) :
    (handleAutomatic = true → StringToInt handleAutomatic "automatic" = Except.ok 0) ∧
    (value = "automatic" → handleAutomatic = false →
      ∃ msg, StringToInt handleAutomatic value = Except.error (PyError.valueError msg)) ∧
    (∀ n, digitsToNat? value.toList = some n →
      StringToInt handleAutomatic value = Except.ok (Int.ofNat n)) ∧
    ((value == "automatic" && handleAutomatic) = false →
      StringToInt handleAutomatic value = pyInt value) := by
  refine ⟨?_, ?_, ?_, ?_⟩
  · rintro rfl
    rfl
  · rintro rfl rfl
    exact ⟨"invalid literal for int: automatic", rfl⟩
  · intro n hn
    have hval : value ≠ "automatic" := by
      intro hv
      have hauto : digitsToNat? "automatic".toList = none := rfl
      rw [hv, hauto] at hn
      cases hn
    have hne : (value == "automatic" && handleAutomatic) = false := by
      have : (value == "automatic") = false := beq_eq_false_iff_ne.mpr hval
      simp [this]
    unfold StringToInt
    rw [if_neg (by simp [hne]), pyInt_of_digits value n hn]
  · intro h
    unfold StringToInt
    rw [if_neg (by simp [h])]

/-- C7 witness: `automatic` maps to `0` when enabled, `42` parses to `42`,
and `automatic` fails to parse when the flag is disabled. -/
theorem stringToInt_spec_witness :
    StringToInt true "automatic" = Except.ok 0 ∧
    StringToInt false "42" = Except.ok 42 ∧
    (∃ msg, StringToInt false "automatic" = Except.error (PyError.valueError msg)) :=
  ⟨(stringToInt_spec true "automatic").1 rfl,
   (stringToInt_spec false "42").2.2.1 42 rfl,
   (stringToInt_spec false "automatic").2.1 rfl rfl⟩

/-! ### Pending-latency pattern lemmas -/

theorem digitsToNat?_isSome (ds : List Char) (hne : ds ≠ [])
    (hall : ds.all Char.isDigit = true) : ∃ n, digitsToNat? ds = some n := by
  have hcond : (!ds.isEmpty && ds.all Char.isDigit) = true := by
    cases ds with
    | nil => exact absurd rfl hne
    | cons c l =>
      rw [hall]
      rfl
  unfold digitsToNat?
  rw [if_pos hcond]
  exact ⟨_, rfl⟩

theorem append_singleton_inj_right {x y : List Char} {a b : Char}
    (h : x ++ [a] = y ++ [b]) : a = b := by
  have h1 := congrArg List.getLast? h
  rw [List.getLast?_concat, List.getLast?_concat] at h1
  injection h1

theorem ms_suffix_self (ds : List Char) :
    List.isSuffixOf ['m', 's'] (ds ++ ['m', 's']) = true :=
  List.isSuffixOf_iff_suffix.mpr ⟨ds, rfl⟩

theorem not_ms_suffix_of_s (ds : List Char) (hall : ds.all Char.isDigit = true) :
    List.isSuffixOf ['m', 's'] (ds ++ ['s']) = false := by
  by_contra hcon
  rw [Bool.not_eq_false] at hcon
  obtain ⟨t, ht⟩ := List.isSuffixOf_iff_suffix.mp hcon
  have ht2 : (t ++ ['m']) ++ ['s'] = ds ++ ['s'] := by
    rw [List.append_assoc]
    exact ht
  have ht3 : t ++ ['m'] = ds := List.append_cancel_right ht2
  have hmem : 'm' ∈ ds := by
    rw [← ht3]
    exact List.mem_append_right t (by simp)
  have hd := List.all_eq_true.mp hall 'm' hmem
  exact absurd hd (by decide)

theorem not_ms_suffix_of_dot (ds fs : List Char) (hfne : fs ≠ [])
    (hfall : fs.all Char.isDigit = true) :
    List.isSuffixOf ['m', 's'] (ds ++ '.' :: (fs ++ ['s'])) = false := by
  by_contra hcon
  rw [Bool.not_eq_false] at hcon
  obtain ⟨t, ht⟩ := List.isSuffixOf_iff_suffix.mp hcon
  have hshape : ds ++ '.' :: (fs ++ ['s']) = (ds ++ '.' :: fs) ++ ['s'] := by
    rw [List.append_assoc, List.cons_append]
  rw [hshape] at ht
  have ht2 : (t ++ ['m']) ++ ['s'] = (ds ++ '.' :: fs) ++ ['s'] := by
    rw [List.append_assoc]
    exact ht
  have ht3 : t ++ ['m'] = ds ++ '.' :: fs := List.append_cancel_right ht2
  have hfs2 := List.dropLast_append_getLast hfne
  have ht4 : t ++ ['m'] = (ds ++ '.' :: fs.dropLast) ++ [fs.getLast hfne] := by
    rw [ht3]
    conv_lhs => rw [← hfs2]
    rw [List.append_assoc, List.cons_append]
  have hlast : 'm' = fs.getLast hfne := append_singleton_inj_right ht4
  have hmem : fs.getLast hfne ∈ fs := List.getLast_mem hfne
  have hd := List.all_eq_true.mp hfall _ hmem
  rw [← hlast] at hd
  exact absurd hd (by decide)

theorem dropLast_dropLast_append_two (ds : List Char) (a b : Char) :
    (ds ++ [a, b]).dropLast.dropLast = ds := by
  have h1 : ds ++ [a, b] = (ds ++ [a]) ++ [b] := by
    rw [List.append_assoc]
    rfl
  rw [h1, List.dropLast_concat, List.dropLast_concat]

theorem pendingLatencyMatch_inversion (value : String)
    (h : pendingLatencyMatch value = true) :
    value = "automatic" ∨
    (∃ ds, value.toList = ds ++ ['m', 's'] ∧ ds ≠ [] ∧ ds.all Char.isDigit = true) ∨
    (∃ ds, value.toList = ds ++ ['s'] ∧ ds ≠ [] ∧ ds.all Char.isDigit = true) ∨
    (∃ ds fs, value.toList = ds ++ '.' :: (fs ++ ['s']) ∧ ds ≠ [] ∧ fs ≠ [] ∧
      ds.all Char.isDigit = true ∧ fs.all Char.isDigit = true) := by
  unfold pendingLatencyMatch at h
  rw [Bool.or_eq_true] at h
  rcases h with h | h
  · exact Or.inl (beq_iff_eq.mp h)
  · rw [Bool.and_eq_true] at h
    obtain ⟨hne0, hrest⟩ := h
    have hsplit := List.takeWhile_append_dropWhile Char.isDigit (l := value.toList)
    have hall : (value.toList.takeWhile Char.isDigit).all Char.isDigit = true :=
      List.all_eq_true.mpr (fun c hc => List.mem_takeWhile_imp hc)
    have hne : value.toList.takeWhile Char.isDigit ≠ [] := by
      intro hnil
      rw [hnil] at hne0
      cases hne0
    rw [Bool.or_eq_true, Bool.or_eq_true] at hrest
    rcases hrest with (h1 | h1) | h1
    · refine Or.inr (Or.inl ⟨value.toList.takeWhile Char.isDigit, ?_, hne, hall⟩)
      rw [beq_iff_eq.mp h1] at hsplit
      exact hsplit.symm
    · refine Or.inr (Or.inr (Or.inl ⟨value.toList.takeWhile Char.isDigit, ?_, hne, hall⟩))
      rw [beq_iff_eq.mp h1] at hsplit
      exact hsplit.symm
    · generalize hr : value.toList.dropWhile Char.isDigit = rest at h1
      cases rest with
      | nil => cases h1
      | cons c r =>
        split at h1
        · rename_i r2 heq
          injection heq with hc hr2
          refine Or.inr (Or.inr (Or.inr
            ⟨value.toList.takeWhile Char.isDigit, r2.takeWhile Char.isDigit,
              ?_, hne, ?_, hall, ?_⟩))
          · rw [Bool.and_eq_true] at h1
            have hrs := List.takeWhile_append_dropWhile Char.isDigit (l := r2)
            rw [beq_iff_eq.mp h1.2] at hrs
            rw [hr, hc, hr2, ← hrs] at hsplit
            exact hsplit.symm
          · rw [Bool.and_eq_true] at h1
            intro hnil
            rw [hnil] at h1
            rcases h1 with ⟨h1, _⟩
            cases h1
          · exact List.all_eq_true.mpr (fun x hx => List.mem_takeWhile_imp hx)
        · cases h1

set_option maxRecDepth 8000 in
set_option exponentiation.threshold 2000 in
/-- C5 counterexample: the original claim reads the `ms` case as the exact
milliseconds divided by 1000 rendered as `<seconds>s`, which for
`1000000000001ms` would be `1000000000.001s`; the program computes
`'%ss' % (float('1000000000001') / 1000)` with Python 2 `str()` — twelve
significant digits — and returns `1000000000.0s` instead. -/
theorem latencyToDuration_float_rounding :
    LatencyToDuration "1000000000001ms" = Except.ok (some "1000000000.0s") ∧
    "1000000000.0s" ≠ "1000000000.001s" :=
  ⟨by decide, by decide⟩

/-- C5 (amended): for every string matching the pending-latency pattern,
`LatencyToDuration` returns no value on exactly `automatic`; when the
value ends in `ms` it returns the millisecond count converted through
Python floats — the digit string parsed to the nearest double, divided by
1000 in double precision, and rendered by Python 2 `str()` with twelve
significant digits (for short inputs this is the exact quotient, e.g.
`200ms` yields `0.2s`, while `1000000000001ms` yields the rounded
`1000000000.0s`) — suffixed with `s`; any other matching value is returned
unchanged; and every non-matching string fails with a parse `ValueError`. -/
theorem latencyToDuration_spec (value : String) :
    (pendingLatencyMatch value = true →
      ((value = "automatic" → LatencyToDuration value = Except.ok none) ∧
       (value ≠ "automatic" → List.isSuffixOf ['m', 's'] value.toList = true →
         ∃ n, digitsToNat? (value.toList.dropLast.dropLast) = some n ∧
           LatencyToDuration value =
             Except.ok (some (pyStrFloat (pyFloatDiv1000 (pyFloatOfNat n)) ++ "s"))) ∧
       (value ≠ "automatic" → List.isSuffixOf ['m', 's'] value.toList = false →
         LatencyToDuration value = Except.ok (some value)))) ∧
    (pendingLatencyMatch value = false →
      ∃ msg, LatencyToDuration value = Except.error (PyError.valueError msg)) := by
  constructor
  · intro hm
    refine ⟨?_, ?_, ?_⟩
    · rintro rfl
      rfl
    · intro hna hms
      rcases pendingLatencyMatch_inversion value hm with
        h | ⟨ds, hds, hdne, hdall⟩ | ⟨ds, hds, hdne, hdall⟩ |
        ⟨ds, fs, hds, hdne, hfne, hdall, hfall⟩
      · exact absurd h hna
      · obtain ⟨n, hn⟩ := digitsToNat?_isSome ds hdne hdall
        have hdrop : value.toList.dropLast.dropLast = ds := by
          rw [hds]
          exact dropLast_dropLast_append_two ds 'm' 's'
        refine ⟨n, ?_, ?_⟩
        · rw [hdrop]
          exact hn
        · unfold LatencyToDuration
          rw [if_neg (by rw [hm]; decide)]
          rw [if_neg (fun hh => hna (beq_iff_eq.mp hh))]
          rw [if_pos hms]
          rw [hdrop, hn]
      · have hfalse : List.isSuffixOf ['m', 's'] value.toList = false := by
          rw [hds]
          exact not_ms_suffix_of_s ds hdall
        rw [hfalse] at hms
        cases hms
      · have hfalse : List.isSuffixOf ['m', 's'] value.toList = false := by
          rw [hds]
          exact not_ms_suffix_of_dot ds fs hfne hfall
        rw [hfalse] at hms
        cases hms
    · intro hna hnm
      unfold LatencyToDuration
      rw [if_neg (by rw [hm]; decide)]
      rw [if_neg (fun hh => hna (beq_iff_eq.mp hh))]
      rw [if_neg (by rw [hnm]; decide)]
  · intro hm
    unfold LatencyToDuration
    rw [if_pos (by rw [hm]; rfl)]
    exact ⟨_, rfl⟩

set_option maxRecDepth 8000 in
set_option exponentiation.threshold 2000 in
/-- C5 witness: `200ms` converts to `0.2s`, `automatic` to no value, `3s`
passes through, and `bogus` fails to parse. -/
theorem latencyToDuration_spec_witness :
    (∃ n, digitsToNat? ("200ms".toList.dropLast.dropLast) = some n ∧
      LatencyToDuration "200ms" =
        Except.ok (some (pyStrFloat (pyFloatDiv1000 (pyFloatOfNat n)) ++ "s"))) ∧
    LatencyToDuration "200ms" = Except.ok (some "0.2s") ∧
    LatencyToDuration "automatic" = Except.ok none ∧
    LatencyToDuration "3s" = Except.ok (some "3s") ∧
    (∃ msg, LatencyToDuration "bogus" = Except.error (PyError.valueError msg)) := by
  refine ⟨?_, by decide, ?_, ?_, ?_⟩
  · exact ((latencyToDuration_spec "200ms").1 rfl).2.1 (by decide) rfl
  · exact ((latencyToDuration_spec "automatic").1 rfl).1 rfl
  · exact ((latencyToDuration_spec "3s").1 rfl).2.2 (by decide) rfl
  · exact (latencyToDuration_spec "bogus").2 rfl
